import Mathlib

/-!
Shallow embedding of the `pure-simplify` batch test-simplification scripts
(`src/unnamed/part_000`, the report-per-update variant, and `src/index.js`,
the legacy variant), together with proofs about the discovery/pairing
algorithm, the retry/backoff loop, and the report accounting.

Paths are modelled as lists of segments; the filesystem is a finite rooted
tree of named entries.  The external review service is modelled by the list
of responses it would give to the successive calls made for one record.
-/

namespace PureSimplify

/-! ## Strings: the JS primitives used by the scripts -/

/-- Does `pat` occur as a prefix of `l`? (char-list version of JS
`String.prototype.startsWith`, used to locate substring occurrences). -/
def startsWithList : List Char → List Char → Bool
  | [], _ => true
  | _ :: _, [] => false
  | p :: ps, c :: cs => p == c && startsWithList ps cs

/-- JS `String.prototype.endsWith`: `pat` is a suffix of `s`. -/
def jsEndsWith (s pat : String) : Bool :=
  startsWithList pat.data.reverse s.data.reverse

/-- JS `String.prototype.replace` with a string pattern replaces only the
first occurrence of `pat` (and leaves the string unchanged when `pat` does
not occur). Char-list worker. -/
def replaceFirstChars (pat repl : List Char) : List Char → List Char
  | [] => []
  | c :: cs =>
    if startsWithList pat (c :: cs) then repl ++ (c :: cs).drop pat.length
    else c :: replaceFirstChars pat repl cs

/-- JS `s.replace(pat, repl)` for a string pattern: first occurrence only. -/
def replaceFirst (s pat repl : String) : String :=
  ⟨replaceFirstChars pat.data repl.data s.data⟩

/-- The sanitization `content.replace(/[^\x20-\x7E]/g, '')` applied to file
contents before they are sent to the review service. -/
def sanitizeJs (s : String) : String :=
  ⟨s.data.filter (fun c => 0x20 ≤ c.toNat && c.toNat ≤ 0x7E)⟩

/-! ## Filesystem model -/

/-- A filesystem subtree: a file with its content, or a directory whose
entries are named subtrees (in directory-listing order). -/
inductive FSTree where
  | file (content : String)
  | dir (entries : List (String × FSTree))

/-- Look up a direct child by name (first match, as `fs` path resolution). -/
def lookupChild : List (String × FSTree) → String → Option FSTree
  | [], _ => none
  | (n, t) :: es, seg => if n == seg then some t else lookupChild es seg

/-- Resolve a path (list of segments) against a tree. -/
def FSTree.find : FSTree → List String → Option FSTree
  | t, [] => some t
  | .file _, _ :: _ => none
  | .dir es, seg :: rest =>
    match lookupChild es seg with
    | some t => FSTree.find t rest
    | none => none

/-- `fs.existsSync`: the path resolves to some entry of the tree. -/
def existsAt (root : FSTree) (p : List String) : Bool :=
  (root.find p).isSome

/-! ## Pairing engine (`findSpecFilesAndRelated`) -/

/-- The recognized specification suffix test:
`item.endsWith('.spec.js') || item.endsWith('.spec.ts') || item.endsWith('.spec.vue')`. -/
def isSpecName (item : String) : Bool :=
  jsEndsWith item ".spec.js" || jsEndsWith item ".spec.ts" || jsEndsWith item ".spec.vue"

/-- `const relatedFileName = item.replace('.spec.', '.')`. -/
def relatedNameOf (item : String) : String :=
  replaceFirst item ".spec." "."

/-- One discovered specification file, as pushed onto `filesList`. -/
structure SpecRecord where
  specFileName : String
  specFilePath : List String
  relatedFileName : Option String
  relatedFilePath : Option (List String)
deriving DecidableEq

/-- The record built for one matching file `item` found in directory
`dirPath`: the related candidate is looked up first in `dirPath`, then in
`path.dirname dirPath` (one level up), else both related fields are null. -/
def mkRecord (root : FSTree) (dirPath : List String) (item : String) : SpecRecord :=
  let relName := relatedNameOf item
  let samePath := dirPath ++ [relName]
  if existsAt root samePath then
    ⟨item, dirPath ++ [item], some relName, some samePath⟩
  else
    let parentPath := dirPath.dropLast ++ [relName]
    if existsAt root parentPath then
      ⟨item, dirPath ++ [item], some relName, some parentPath⟩
    else
      ⟨item, dirPath ++ [item], none, none⟩

/-- The body of `findSpecFilesAndRelated`: walk the entries of directory
`dirPath` in listing order, recursing depth-first into subdirectories and
appending one record per file whose name matches a recognized suffix.
`root` is the whole filesystem (existence checks may look outside the
walked subtree, e.g. in a parent directory). -/
def findSpecEntries (root : FSTree) : List String → List (String × FSTree) → List SpecRecord
  | _, [] => []
  | dirPath, (item, FSTree.dir es) :: rest =>
    findSpecEntries root (dirPath ++ [item]) es ++ findSpecEntries root dirPath rest
  | dirPath, (item, FSTree.file _) :: rest =>
    (if isSpecName item then [mkRecord root dirPath item] else []) ++
      findSpecEntries root dirPath rest

/-- `findSpecFilesAndRelated(startDir)`: traverse the directory at `dirPath`
inside the filesystem `root`. -/
def findSpecFilesAndRelated (root : FSTree) (dirPath : List String) : List SpecRecord :=
  match root.find dirPath with
  | some (FSTree.dir es) => findSpecEntries root dirPath es
  | _ => []

/-! ## Review service responses

`sendToClaudeForReview` returns the service's raw text, or `null` on a
transport error / unexpected response shape.  The orchestrator then runs
`JSON.parse` on the text and reads its `newSpecContent` field.  A response
is therefore classified by its effect on the loop:
- `transportFailure`: the call returned `null` (or an empty, falsy text) —
  the `if (claudeResponse)` block is skipped;
- `unparseable`: text was returned but `JSON.parse` throws — the catch
  resets `claudeResponse` to `null`;
- `parsed c`: text parsed as a JSON object whose `newSpecContent` field is
  `c` (`none` when the field is absent). -/
inductive ServiceResponse where
  | transportFailure
  | unparseable (raw : String)
  | parsed (newSpecContent : Option String)

/-- JS truthiness of `parsedResponse.newSpecContent` for a string-or-absent
field: present and non-empty. -/
def contentTruthy : Option String → Bool
  | none => false
  | some s => !(s == "")

/-- A response on which `claudeResponse` ends up `null` again (transport
failure or unparseable text): the branch that triggers a retry. -/
def isFailureResp : ServiceResponse → Bool
  | ServiceResponse.parsed _ => false
  | _ => true

/-- `// Ensure the new content ends with a newline` : the content written on
success is `newSpecContent` if it already ends with `'\n'`, else with `'\n'`
appended. -/
def ensureTrailingNewline (s : String) : String :=
  if jsEndsWith s "\n" then s else s ++ "\n"

/-! ## Batch orchestrator (`src/unnamed/part_000`, per-record loop) -/

/-- `const maxRetries = 3`. -/
def maxRetries : Nat := 3

/-- `Failed to receive response after ${maxRetries} attempts`. -/
def failureMsg : String := "Failed to receive response after 3 attempts"

/-- One entry pushed onto `processedFiles` (each push is followed by an
`updateReport()` call). `success`/`skipped` record the spec file's path,
`err` records `{file: specFileName, error: message}`. -/
inductive Entry where
  | success (path : List String)
  | skipped (path : List String)
  | err (file : String) (msg : String)
deriving DecidableEq

/-- Everything observable about one run of the per-record `while` loop:
the entries pushed (in order), the number of `sendToClaudeForReview`
invocations, the backoff delays awaited (in ms, in order), the content
written to the spec file (if any), and whether `claudeResponse` was
non-null when the loop exited. -/
structure LoopResult where
  entries : List Entry
  calls : Nat
  delays : List Nat
  written : Option String
  responded : Bool
deriving DecidableEq

/-- The `while (retries < maxRetries && !claudeResponse)` loop of
`src/unnamed/part_000` `main`, consuming the service's responses in order
(one list element per `sendToClaudeForReview` call):
- a parsed response with truthy `newSpecContent` writes the
  newline-normalized content and pushes a success entry;
- a parsed response with empty/absent `newSpecContent` pushes a skipped
  entry (and the loop exits, `claudeResponse` being non-null);
- otherwise `claudeResponse` is `null` at the bottom of the body: `retries`
  is incremented, and either the loop waits `1000 * retries` ms and
  retries, or (when `retries` reaches `maxRetries`) pushes an error entry
  and exits. -/
def runLoop (rec : SpecRecord) : List ServiceResponse → Nat → LoopResult
  | [], _ => ⟨[], 0, [], none, false⟩
  | resp :: rest, retries =>
    if retries < maxRetries then
      match resp with
      | ServiceResponse.parsed c =>
        if contentTruthy c then
          ⟨[Entry.success rec.specFilePath], 1, [],
            some (ensureTrailingNewline (c.getD "")), true⟩
        else
          ⟨[Entry.skipped rec.specFilePath], 1, [], none, true⟩
      | _ =>
        let retries' := retries + 1
        if retries' < maxRetries then
          let r := runLoop rec rest retries'
          ⟨r.entries, r.calls + 1, 1000 * retries' :: r.delays, r.written, r.responded⟩
        else
          ⟨[Entry.err rec.specFileName failureMsg], 1, [], none, false⟩
    else ⟨[], 0, [], none, false⟩

/-- Per-record processing of `src/unnamed/part_000`: run the retry loop
starting from `retries = 0`, then the post-loop
`if (!claudeResponse) { processedFiles.error.push(...) }` appends a second
error entry whenever the loop exited without a response. -/
def processRecord (rec : SpecRecord) (responses : List ServiceResponse) : LoopResult :=
  let r := runLoop rec responses 0
  if r.responded then r
  else { r with entries := r.entries ++ [Entry.err rec.specFileName failureMsg] }

/-! ## Report writer (`updateReport` of `src/unnamed/part_000`) -/

/-- The mutable `processedFiles` accumulator: `{success: [], error: [], skipped: []}`. -/
structure ProcessedFiles where
  success : List (List String)
  error : List (String × String)
  skipped : List (List String)
deriving DecidableEq

/-- The report object serialized by `updateReport`. -/
structure Report where
  totalProcessed : Nat
  successfullyProcessed : Nat
  errors : Nat
  skipped : Nat
  successfulFiles : List (List String)
  errorFiles : List (String × String)
  skippedFiles : List (List String)
deriving DecidableEq

/-- `updateReport`'s snapshot of the accumulator:
`totalProcessed` is computed as
`success.length + error.length + skipped.length`. -/
def mkReport (p : ProcessedFiles) : Report :=
  { totalProcessed := p.success.length + p.error.length + p.skipped.length
    successfullyProcessed := p.success.length
    errors := p.error.length
    skipped := p.skipped.length
    successfulFiles := p.success
    errorFiles := p.error
    skippedFiles := p.skipped }

/-- Push one entry onto the matching list of `processedFiles`. -/
def applyEntry (p : ProcessedFiles) : Entry → ProcessedFiles
  | Entry.success path => { p with success := p.success ++ [path] }
  | Entry.skipped path => { p with skipped := p.skipped ++ [path] }
  | Entry.err name msg => { p with error := p.error ++ [(name, msg)] }

/-- The sequence of report snapshots written to disk: one `updateReport()`
call after every push. -/
def runReportsFrom (p : ProcessedFiles) : List Entry → List Report
  | [] => []
  | e :: es => mkReport (applyEntry p e) :: runReportsFrom (applyEntry p e) es

/-- All entries pushed during a whole run: the records are processed
strictly in order, `responsesFor` giving the service's responses for each
record's calls. -/
def runEntries (records : List SpecRecord)
    (responsesFor : SpecRecord → List ServiceResponse) : List Entry :=
  (records.map fun r => (processRecord r (responsesFor r)).entries).flatten

/-- The sequence of report files written during a whole run of
`src/unnamed/part_000` `main` (the report is only ever written by
`updateReport`, which only runs after an entry is pushed). -/
def runReportWrites (records : List SpecRecord)
    (responsesFor : SpecRecord → List ServiceResponse) : List Report :=
  runReportsFrom ⟨[], [], []⟩ (runEntries records responsesFor)

/-! ## Legacy orchestrator (`src/index.js`) -/

/-- The retry loop of `src/index.js` `main`: same structure as
`runLoop`, except that a successful response's content is written verbatim
(no newline normalization) and an empty/absent `newSpecContent` pushes no
entry at all (only a console message; `index.js` has no `skipped` list). -/
def legacyRunLoop (rec : SpecRecord) : List ServiceResponse → Nat → LoopResult
  | [], _ => ⟨[], 0, [], none, false⟩
  | resp :: rest, retries =>
    if retries < maxRetries then
      match resp with
      | ServiceResponse.parsed c =>
        if contentTruthy c then
          ⟨[Entry.success rec.specFilePath], 1, [], some (c.getD ""), true⟩
        else
          ⟨[], 1, [], none, true⟩
      | _ =>
        let retries' := retries + 1
        if retries' < maxRetries then
          let r := legacyRunLoop rec rest retries'
          ⟨r.entries, r.calls + 1, 1000 * retries' :: r.delays, r.written, r.responded⟩
        else
          ⟨[Entry.err rec.specFileName failureMsg], 1, [], none, false⟩
    else ⟨[], 0, [], none, false⟩

/-- The error message of a JS `TypeError` raised by assigning to a `const`
binding. -/
def constAssignMsg : String := "Assignment to constant variable."

/-- Per-record processing of `src/index.js` `main` (lines 170–238): the
body declares `const sanitizedRelatedContent = null` and, whenever
`specFile.relatedFilePath` is present, reassigns it — which raises a
`TypeError` before `sendToClaudeForReview` is ever called; the per-record
`catch` turns the exception into an error entry.  A record without a
related file runs the legacy retry loop (with the same duplicated
post-loop error push as the other variant). -/
def legacyProcessRecord (rec : SpecRecord) (responses : List ServiceResponse) : LoopResult :=
  if rec.relatedFilePath.isSome then
    ⟨[Entry.err rec.specFileName constAssignMsg], 0, [], none, false⟩
  else
    let r := legacyRunLoop rec responses 0
    if r.responded then r
    else { r with entries := r.entries ++ [Entry.err rec.specFileName failureMsg] }

/-! ## Predicates and fixtures used in the statements -/

/-- Does any file anywhere under the given entries carry a recognized
specification suffix? -/
def entriesHaveSpec : List (String × FSTree) → Bool
  | [] => false
  | (name, FSTree.file _) :: rest => isSpecName name || entriesHaveSpec rest
  | (_, FSTree.dir es) :: rest => entriesHaveSpec es || entriesHaveSpec rest

/-- A sample discovered record without a related file. -/
def recA : SpecRecord := ⟨"a.spec.js", ["d", "a.spec.js"], none, none⟩

/-- A sample discovered record with a related file. -/
def recB : SpecRecord := ⟨"b.spec.js", ["b.spec.js"], some "b.js", some ["b.js"]⟩

/-- Three consecutive transport failures: a record whose every review
attempt fails. -/
def fail3 : List ServiceResponse :=
  [ServiceResponse.transportFailure, ServiceResponse.transportFailure,
    ServiceResponse.transportFailure]

/-- A fixture tree: the subject `a.js` lives one level up from the
directory `d` holding `a.spec.js`. -/
def tree5 : FSTree :=
  FSTree.dir [("d", FSTree.dir [("a.spec.js", FSTree.file "spec")]),
    ("a.js", FSTree.file "subject")]

/-- A fixture tree containing no file with a recognized specification
suffix. -/
def tree7 : FSTree :=
  FSTree.dir [("readme.md", FSTree.file "hello"),
    ("src", FSTree.dir [("main.js", FSTree.file "code")])]

/-- The entry list of `tree7`. -/
def tree7Entries : List (String × FSTree) :=
  [("readme.md", FSTree.file "hello"),
    ("src", FSTree.dir [("main.js", FSTree.file "code")])]

/-- A response assignment where the service always fails. -/
def responsesNone : SpecRecord → List ServiceResponse := fun _ => fail3

/-- A fixture tree where a specification file name contains `.spec.`
twice, next to the specification file the derived name points at. -/
def tree10 : FSTree :=
  FSTree.dir [("a.spec.spec.js", FSTree.file "one"), ("a.spec.js", FSTree.file "two")]

/-! ## Helper lemmas -/

theorem data_append (s t : String) : (s ++ t).data = s.data ++ t.data := rfl

theorem jsEndsWith_newline_append (s : String) : jsEndsWith (s ++ "\n") "\n" = true := by
  show startsWithList "\n".data.reverse (s ++ "\n").data.reverse = true
  rw [data_append, show "\n".data = ['\n'] from rfl]
  simp [List.reverse_append, startsWithList]

theorem mem_runReportsFrom {r : Report} :
    ∀ (es : List Entry) (p : ProcessedFiles), r ∈ runReportsFrom p es →
      ∃ q, r = mkReport q
  | [], p, h => by simp [runReportsFrom] at h
  | e :: es, p, h => by
    simp only [runReportsFrom, List.mem_cons] at h
    rcases h with h | h
    · exact ⟨applyEntry p e, h⟩
    · exact mem_runReportsFrom es (applyEntry p e) h

theorem findSpecEntries_of_noSpec (root : FSTree) :
    ∀ (dirPath : List String) (es : List (String × FSTree)),
      entriesHaveSpec es = false → findSpecEntries root dirPath es = []
  | _, [], _ => by simp [findSpecEntries]
  | dirPath, (item, FSTree.file c) :: rest, h => by
    simp only [entriesHaveSpec, Bool.or_eq_false_iff] at h
    simp [findSpecEntries, h.1, findSpecEntries_of_noSpec root dirPath rest h.2]
  | dirPath, (item, FSTree.dir es) :: rest, h => by
    simp only [entriesHaveSpec, Bool.or_eq_false_iff] at h
    simp [findSpecEntries, findSpecEntries_of_noSpec root (dirPath ++ [item]) es h.1,
      findSpecEntries_of_noSpec root dirPath rest h.2]

/-! ## Claim theorems -/

/-- Claim C1 (code bug): a SpecRecord whose every review attempt fails is
recorded twice, not once — the error entry is pushed both inside the retry
loop (when `retries` reaches `maxRetries`) and again by the post-loop
`if (!claudeResponse)` check, so the run's final report lists the single
record twice among `errorFiles` and counts it twice in `totalProcessed`. -/
theorem c1_failed_record_recorded_twice :
    (processRecord recA fail3).entries =
      [Entry.err "a.spec.js" failureMsg, Entry.err "a.spec.js" failureMsg]
    ∧ (processRecord recA fail3).entries.length = 2
    ∧ (runReportWrites [recA] responsesNone).getLast? =
        some (mkReport ⟨[], [("a.spec.js", failureMsg), ("a.spec.js", failureMsg)], []⟩)
    ∧ (mkReport ⟨[], [("a.spec.js", failureMsg), ("a.spec.js", failureMsg)], []⟩).errors = 2 := by
  decide

/-- Claim C2: for a SpecRecord whose every review attempt fails (transport
failure or unparseable response), the review client is invoked exactly 3
times before the record's outcome becomes Failed (no response was
accepted, nothing was written). -/
theorem c2_retry_bound_three_calls (rec : SpecRecord) (r0 r1 r2 : ServiceResponse)
    (rest : List ServiceResponse) (h0 : isFailureResp r0 = true)
    (h1 : isFailureResp r1 = true) (h2 : isFailureResp r2 = true) :
    (processRecord rec (r0 :: r1 :: r2 :: rest)).calls = 3
    ∧ (processRecord rec (r0 :: r1 :: r2 :: rest)).responded = false
    ∧ (processRecord rec (r0 :: r1 :: r2 :: rest)).written = none := by
  cases r0 <;> cases r1 <;> cases r2 <;>
    simp_all [processRecord, runLoop, maxRetries, isFailureResp]

/-- Claim C2, witness at three concrete transport failures. -/
theorem c2_retry_bound_three_calls_witness :
    (processRecord recA fail3).calls = 3
    ∧ (processRecord recA fail3).responded = false
    ∧ (processRecord recA fail3).written = none :=
  c2_retry_bound_three_calls recA ServiceResponse.transportFailure
    ServiceResponse.transportFailure ServiceResponse.transportFailure [] rfl rfl rfl

/-- Claim C4: a response that parses as one JSON object but whose
`newSpecContent` field is empty or absent makes the record's outcome
Skipped on that very attempt: exactly one skipped entry, one service call,
no backoff delay, no file write — regardless of what later responses would
have been. -/
theorem c4_absent_content_skips_without_retry (rec : SpecRecord) (c : Option String)
    (rest : List ServiceResponse) (hc : contentTruthy c = false) :
    processRecord rec (ServiceResponse.parsed c :: rest) =
      ⟨[Entry.skipped rec.specFilePath], 1, [], none, true⟩ := by
  simp [processRecord, runLoop, maxRetries, hc]

/-- Claim C4, witness at a response with the content field absent. -/
theorem c4_absent_content_skips_without_retry_witness :
    processRecord recA [ServiceResponse.parsed none] =
      ⟨[Entry.skipped ["d", "a.spec.js"]], 1, [], none, true⟩ :=
  c4_absent_content_skips_without_retry recA none [] rfl

/-- Claim C3, counterexample: when the service returns
`newSpecContent = "X\n\n"`, the content written to the specification file
is `"X\n\n"` itself — it ends with two consecutive line terminators, so
the written text does not always end with exactly one. -/
theorem c3_multiple_terminators_preserved :
    (processRecord recA [ServiceResponse.parsed (some "X\n\n")]).written = some "X\n\n"
    ∧ jsEndsWith "X\n\n" "\n\n" = true := by
  decide

/-- Claim C3 as amended: for a non-empty accepted `newSpecContent`, the
written content is the field itself when it already ends with a newline
(pre-existing duplicated terminators included), and the field with exactly
one newline appended otherwise; in either case the written text ends with
a line terminator. -/
theorem c3_trailing_newline_appended_when_missing (rec : SpecRecord) (s : String)
    (rest : List ServiceResponse) (hs : (s == "") = false) :
    (processRecord rec (ServiceResponse.parsed (some s) :: rest)).written =
        some (ensureTrailingNewline s)
    ∧ jsEndsWith (ensureTrailingNewline s) "\n" = true
    ∧ (jsEndsWith s "\n" = true → ensureTrailingNewline s = s)
    ∧ (jsEndsWith s "\n" = false → ensureTrailingNewline s = s ++ "\n") := by
  refine ⟨?_, ?_, ?_, ?_⟩
  · simp [processRecord, runLoop, maxRetries, contentTruthy, hs]
  · cases h : jsEndsWith s "\n" with
    | false => simp [ensureTrailingNewline, h, jsEndsWith_newline_append]
    | true => simp [ensureTrailingNewline, h]
  · intro h; simp [ensureTrailingNewline, h]
  · intro h; simp [ensureTrailingNewline, h]

/-- Claim C3 as amended, witness: the service returns exactly `"X\n"` and
the on-disk content becomes exactly `"X\n"`. -/
theorem c3_trailing_newline_appended_when_missing_witness :
    (processRecord recA [ServiceResponse.parsed (some "X\n")]).written = some "X\n" := by
  have h := c3_trailing_newline_appended_when_missing recA "X\n" [] (by decide)
  rw [h.1, h.2.2.1 (by decide)]

/-- Claim C8: whenever the first two review attempts for a record fail,
the orchestrator waits `1000 * 1` ms after the first failed attempt and
`1000 * 2` ms after the second — two delays, each the attempt number times
the fixed 1000 ms base, in strictly increasing order — and no delay ever
follows the third attempt, whatever its result. -/
theorem c8_backoff_delays_increasing (rec : SpecRecord) (r0 r1 r2 : ServiceResponse)
    (rest : List ServiceResponse) (h0 : isFailureResp r0 = true)
    (h1 : isFailureResp r1 = true) :
    (processRecord rec (r0 :: r1 :: r2 :: rest)).delays = [1000 * 1, 1000 * 2]
    ∧ List.Chain' (· < ·) (processRecord rec (r0 :: r1 :: r2 :: rest)).delays := by
  cases r0 <;> cases r1 <;> simp_all [isFailureResp] <;> cases r2 <;>
    simp_all [processRecord, runLoop, maxRetries] <;>
    rename_i c <;> cases h : contentTruthy c <;> simp [h]

/-- Claim C8, witness: unparseable text on attempts 1 and 2, then a valid
response with content on attempt 3. -/
theorem c8_backoff_delays_increasing_witness :
    (processRecord recA
        [ServiceResponse.unparseable "oops", ServiceResponse.unparseable "oops",
          ServiceResponse.parsed (some "X")]).delays = [1000 * 1, 1000 * 2]
    ∧ List.Chain' (· < ·)
        (processRecord recA
          [ServiceResponse.unparseable "oops", ServiceResponse.unparseable "oops",
            ServiceResponse.parsed (some "X")]).delays :=
  c8_backoff_delays_increasing recA (ServiceResponse.unparseable "oops")
    (ServiceResponse.unparseable "oops") (ServiceResponse.parsed (some "X")) [] rfl rfl

/-- Claim C9: in the legacy variant (`src/index.js`), every SpecRecord
with a paired subject file is recorded as Failed — via the `TypeError`
raised by reassigning the `const` binding `sanitizedRelatedContent`,
converted by the per-record catch into an error entry — with the review
service invoked zero times and nothing written. -/
theorem c9_legacy_paired_record_fails_without_call (rec : SpecRecord)
    (responses : List ServiceResponse) (h : rec.relatedFilePath.isSome = true) :
    legacyProcessRecord rec responses =
      ⟨[Entry.err rec.specFileName constAssignMsg], 0, [], none, false⟩ := by
  simp [legacyProcessRecord, h]

/-- Claim C9, witness at a concrete paired record: the service would have
answered with content, yet the record fails with zero calls. -/
theorem c9_legacy_paired_record_fails_without_call_witness :
    legacyProcessRecord recB [ServiceResponse.parsed (some "X")] =
      ⟨[Entry.err "b.spec.js" constAssignMsg], 0, [], none, false⟩ :=
  c9_legacy_paired_record_fails_without_call recB [ServiceResponse.parsed (some "X")] rfl

/-- Claim C5: the subject file is resolved first in the specification
file's own directory; only when no file with the derived name exists there
is it looked up one level up; when absent there as well both related
fields are null, and a file with a recognized suffix always contributes
its record to the discovered list. -/
theorem c5_pairing_resolution_order (root : FSTree) (dirPath : List String) (item : String) :
    ((mkRecord root dirPath item).relatedFilePath =
      if existsAt root (dirPath ++ [relatedNameOf item]) then
        some (dirPath ++ [relatedNameOf item])
      else if existsAt root (dirPath.dropLast ++ [relatedNameOf item]) then
        some (dirPath.dropLast ++ [relatedNameOf item])
      else none)
    ∧ (existsAt root (dirPath ++ [relatedNameOf item]) = false →
        existsAt root (dirPath.dropLast ++ [relatedNameOf item]) = false →
        (mkRecord root dirPath item).relatedFilePath = none
        ∧ (mkRecord root dirPath item).relatedFileName = none)
    ∧ (∀ (c : String) (rest : List (String × FSTree)), isSpecName item = true →
        findSpecEntries root dirPath ((item, FSTree.file c) :: rest) =
          mkRecord root dirPath item :: findSpecEntries root dirPath rest) := by
  refine ⟨?_, ?_, ?_⟩
  · simp only [mkRecord]; split_ifs <;> simp_all
  · intro hA hB; simp [mkRecord, hA, hB]
  · intro c rest h; simp [findSpecEntries, h]

/-- Claim C5, witness: in `tree5` the subject `a.js` is found one level up
from the directory of `a.spec.js`; in `tree7` an unmatched specification
name resolves to no related path; the matching file still yields its
record. -/
theorem c5_pairing_resolution_order_witness :
    (mkRecord tree5 ["d"] "a.spec.js").relatedFilePath = some ["a.js"]
    ∧ (mkRecord tree7 [] "x.spec.js").relatedFilePath = none
    ∧ findSpecEntries tree5 ["d"] [("a.spec.js", FSTree.file "spec")] =
        [mkRecord tree5 ["d"] "a.spec.js"] := by
  refine ⟨?_, ?_, ?_⟩
  · rw [(c5_pairing_resolution_order tree5 ["d"] "a.spec.js").1]; decide
  · exact ((c5_pairing_resolution_order tree7 [] "x.spec.js").2.1
      (by decide) (by decide)).1
  · have h := (c5_pairing_resolution_order tree5 ["d"] "a.spec.js").2.2
      "spec" [] (by decide)
    simpa [findSpecEntries] using h

/-- Claim C6: every report snapshot serialized during a run (one write per
appended entry, i.e. after each terminal outcome) satisfies
`totalProcessed = successfullyProcessed + skipped + errors`; the counts
are list lengths, hence non-negative. -/
theorem c6_report_counts_consistent (records : List SpecRecord)
    (responsesFor : SpecRecord → List ServiceResponse) (r : Report)
    (hr : r ∈ runReportWrites records responsesFor) :
    r.totalProcessed = r.successfullyProcessed + r.skipped + r.errors := by
  obtain ⟨q, rfl⟩ := mem_runReportsFrom _ _ hr
  simp only [mkReport]
  omega

/-- Claim C6, witness: the report written after one successful record. -/
theorem c6_report_counts_consistent_witness :
    (mkReport ⟨[["d", "a.spec.js"]], [], []⟩).totalProcessed =
      (mkReport ⟨[["d", "a.spec.js"]], [], []⟩).successfullyProcessed +
        (mkReport ⟨[["d", "a.spec.js"]], [], []⟩).skipped +
        (mkReport ⟨[["d", "a.spec.js"]], [], []⟩).errors :=
  c6_report_counts_consistent [recA] (fun _ => [ServiceResponse.parsed (some "X")])
    (mkReport ⟨[["d", "a.spec.js"]], [], []⟩) (by decide)

/-- Claim C7, counterexample: on a tree with no recognized specification
file, discovery does return the empty sequence, but the run performs zero
report writes — no report file with all-zero counts (or any other) is
produced, contrary to the claim. -/
theorem c7_no_spec_run_writes_no_report :
    findSpecFilesAndRelated tree7 [] = []
    ∧ runReportWrites (findSpecFilesAndRelated tree7 []) responsesNone = []
    ∧ (runReportWrites (findSpecFilesAndRelated tree7 []) responsesNone).length = 0 := by
  have h : findSpecFilesAndRelated tree7 [] = [] := by
    simp [findSpecFilesAndRelated, tree7, FSTree.find, findSpecEntries,
      show isSpecName "readme.md" = false from by decide,
      show isSpecName "main.js" = false from by decide]
  exact ⟨h, by rw [h]; rfl, by rw [h]; rfl⟩

/-- Claim C7 as amended: a tree with no file carrying a recognized
specification suffix makes discovery return an empty sequence (not an
error), and the run then writes the report zero times — the cumulative
counts stay at their initial zeros but are never serialized. -/
theorem c7_no_specs_empty_discovery_and_no_writes (root : FSTree) (dirPath : List String)
    (es : List (String × FSTree)) (responsesFor : SpecRecord → List ServiceResponse)
    (h : entriesHaveSpec es = false) :
    findSpecEntries root dirPath es = []
    ∧ runReportWrites (findSpecEntries root dirPath es) responsesFor = [] := by
  have h1 := findSpecEntries_of_noSpec root dirPath es h
  exact ⟨h1, by rw [h1]; rfl⟩

/-- Claim C7 as amended, witness at the concrete spec-free tree. -/
theorem c7_no_specs_empty_discovery_and_no_writes_witness :
    findSpecEntries tree7 [] tree7Entries = []
    ∧ runReportWrites (findSpecEntries tree7 [] tree7Entries) responsesNone = [] :=
  c7_no_specs_empty_discovery_and_no_writes tree7 [] tree7Entries responsesNone (by
    simp [tree7Entries, entriesHaveSpec,
      show isSpecName "readme.md" = false from by decide,
      show isSpecName "main.js" = false from by decide])

/-- Claim C10: `item.replace('.spec.', '.')` replaces only the first
occurrence, so `a.spec.spec.js` derives the subject name `a.spec.js`,
which still carries a recognized specification suffix; on a tree holding
both files, the record for `a.spec.spec.js` is paired with the other
specification file, itself also discovered. -/
theorem c10_first_occurrence_spec_pairs_with_spec :
    relatedNameOf "a.spec.spec.js" = "a.spec.js"
    ∧ isSpecName (relatedNameOf "a.spec.spec.js") = true
    ∧ (mkRecord tree10 [] "a.spec.spec.js").relatedFilePath = some ["a.spec.js"]
    ∧ findSpecFilesAndRelated tree10 [] =
        [mkRecord tree10 [] "a.spec.spec.js", mkRecord tree10 [] "a.spec.js"] := by
  refine ⟨by decide, by decide, by decide, ?_⟩
  simp [findSpecFilesAndRelated, tree10, FSTree.find, findSpecEntries,
    show isSpecName "a.spec.spec.js" = true from by decide,
    show isSpecName "a.spec.js" = true from by decide]

end PureSimplify
